import Mathlib

/-!
Shallow embedding of `src/bot.rs` of the `mimicr` crate: the `Bot` driver,
its `handle_step` execution loop, the `Context` passed to step callbacks,
and the `StepManager` registry.  External effects (the single
`reqwest` send of an invocation, the stopwatch reading) are supplied as an
explicit `World`; a `Stepable` trait object is a record of its callback
functions; callback invocations performed by the driver are recorded in an
event trace carrying the context each callback received at entry.
A Rust panic is modelled by the dedicated `RunResult.panic` outcome
(respectively by `none` in `StepManager.get`, whose `.unwrap()` is the
one partial operation reachable in `handle_step`).
-/

set_option autoImplicit false

namespace Mimicr

/-- Modelled from the spec: `StepError` is declared outside `src/`
(only `bot.rs` is available); its three variants are taken from the
spec and from their construction sites in `bot.rs`:
`StepNotFound(String)`, `ReqwestError(String)`,
`StatusCodeNotFound(i32, Vec<u16>)`. -/
inductive StepError where
  | StepNotFound (name : String)
  | ReqwestError (msg : String)
  | StatusCodeNotFound (actual : Int) (expected : List Nat)
deriving DecidableEq, Repr

/-- Modelled from the spec: the `Request` descriptor lives outside `src/`.
Only its accepted-status-code list (`status_codes()`, an
`Option<Vec<u16>>`) is consulted by the driver; the remaining fields
(method, url, headers, timeout, proxy, user agent, compression) never
influence the claims and are kept as an opaque tag so that distinct
requests stay distinguishable. -/
structure Request where
  status_codes : Option (List Nat) := none
  tag : String := ""
deriving DecidableEq, Repr

/-- Modelled from the spec: `HttpRequester` (cookie store and client
settings) lives outside `src/` and none of its state is consulted by the
claims. -/
structure HttpRequester where
deriving DecidableEq, Repr

/-- Modelled from the spec: `reqwest::RequestBuilder` is external; only its
presence in the context (`Option<RequestBuilder>`, taken by `handle_step`)
matters. -/
structure RequestBuilder where
deriving DecidableEq, Repr

/-- `Context` from `bot.rs` lines 109-126: the state handed to a step's
callbacks.  `response` holds the buffered body bytes (modelled as a list of
byte values). -/
structure Context where
  request : Request
  current_step : Option String
  http_requester : HttpRequester
  request_builder : Option RequestBuilder
  response : Option (List Nat)
  next_step : Option String
  status_codes : Option (List Nat)
  time_elapsed : Nat
deriving DecidableEq, Repr

namespace Context

/-- `Context::set_next_step`. -/
def set_next_step (ctx : Context) (step : String) : Context :=
  { ctx with next_step := some step }

/-- `Context::clear_next_step`. -/
def clear_next_step (ctx : Context) : Context :=
  { ctx with next_step := none }

/-- `Context::get_next_step`. -/
def get_next_step (ctx : Context) : Option String :=
  ctx.next_step

/-- `Context::get_time_elapsed`. -/
def get_time_elapsed (ctx : Context) : Nat :=
  ctx.time_elapsed

/-- `Context::set_time_elapsed`. -/
def set_time_elapsed (ctx : Context) (time_elapsed : Nat) : Context :=
  { ctx with time_elapsed := time_elapsed }

/-- `Context::set_response`. -/
def set_response (ctx : Context) (res : List Nat) : Context :=
  { ctx with response := some res }

/-- `Context::set_request_builder`. -/
def set_request_builder (ctx : Context) (req_builder : RequestBuilder) : Context :=
  { ctx with request_builder := some req_builder }

/-- `Context::body_bytes`: clone of the buffered response. -/
def body_bytes (ctx : Context) : Option (List Nat) :=
  ctx.response

/-- Modelled from the spec: the lossy UTF-8 decode performed by the external
`encoding_rs` crate inside `Context::body_text`.  The claims only touch the
absent-response branch of `body_text`; the decode itself is modelled
byte-wise (ASCII bytes decode to themselves, anything else to the
replacement character), which agrees with `encoding_rs` on ASCII input. -/
def lossyDecode (bs : List Nat) : String :=
  String.mk (bs.map fun b => if b < 128 then Char.ofNat b else Char.ofNat 0xFFFD)

/-- `Context::body_text`: empty string when no response is buffered,
otherwise the lossy UTF-8 decode of the buffered bytes. -/
def body_text (ctx : Context) : String :=
  match ctx.response with
  | none => ""
  | some bs => lossyDecode bs

end Context

/-- The `Stepable` trait (`bot.rs` lines 202-210) as a record of its
methods; the `&mut Context` callbacks become `Context → Context`. -/
structure Stepable where
  name : String
  on_request : Request
  on_success : Context → Context
  on_error : Context → StepError → Context
  on_timeout : Context → Context

/-- `StepManager` (`bot.rs` lines 212-215): the registry.  The `HashMap` is
modelled as an association list whose keys are unique by construction
(`insertAssoc` replaces in place). -/
structure StepManager where
  handlers : List (String × Stepable)

namespace StepManager

/-- `HashMap::insert` on the association-list model: replace the first
entry with the same key, otherwise append. -/
def insertAssoc : List (String × Stepable) → String → Stepable →
    List (String × Stepable)
  | [], k, v => [(k, v)]
  | (k1, v1) :: rest, k, v =>
      if k1 = k then (k, v) :: rest else (k1, v1) :: insertAssoc rest k v

/-- `HashMap::get` on the association-list model. -/
def findAssoc : List (String × Stepable) → String → Option Stepable
  | [], _ => none
  | (k1, v1) :: rest, k => if k1 = k then some v1 else findAssoc rest k

/-- `StepManager::new`. -/
def new : StepManager := { handlers := [] }

/-- `StepManager::insert`: keyed by `step.name().parse().unwrap()`, and
`String::parse::<String>` of a `String` never fails, so the key is
`step.name` itself. -/
def insert (m : StepManager) (step : Stepable) : StepManager :=
  { handlers := insertAssoc m.handlers step.name step }

/-- `StepManager::insert_arc` (same key and map operation as `insert`). -/
def insert_arc (m : StepManager) (step : Stepable) : StepManager :=
  { handlers := insertAssoc m.handlers step.name step }

/-- `StepManager::get`: the source runs
`self.handlers.get(step).unwrap()` and wraps the result in `Some`, so an
absent key panics inside `get` (modelled by `none`) and a present key
yields `some (some step)`; plain `None` is never returned. -/
def get (m : StepManager) (step : String) : Option (Option Stepable) :=
  match findAssoc m.handlers step with
  | none => none
  | some st => some (some st)

/-- `StepManager::len`. -/
def len (m : StepManager) : Nat :=
  m.handlers.length

/-- `StepManager::contains_name`. -/
def contains_name (m : StepManager) (step : String) : Bool :=
  (findAssoc m.handlers step).isSome

end StepManager

/-- `reqwest::StatusCode::is_success`: the conventional 2xx range. -/
def StatusCode.is_success (s : Nat) : Bool :=
  200 ≤ s && s < 300

/-- The outcome of the single `req_builder.send().await` of an invocation:
either a response carrying a numeric status code, or a transport error
carrying its rendered message and its `is_timeout()` flag. -/
inductive SendOutcome where
  | ok (status : Nat)
  | failed (msg : String) (is_timeout : Bool)
deriving DecidableEq, Repr

/-- The ambient effects of one `handle_step` invocation: the transport
outcome and the stopwatch reading (milliseconds) at the moment
`stop_watch.elapsed()` is taken. -/
structure World where
  send : SendOutcome
  elapsed : Nat
deriving DecidableEq, Repr

/-- The result of `handle_step`: `Ok(ctx)`, `Err(e)`, or a Rust panic. -/
inductive RunResult where
  | ok (ctx : Context)
  | err (e : StepError)
  | panic
deriving DecidableEq, Repr

/-- Trace of the observable actions `handle_step` performs: the
`on_request` call, the network send, and each step callback together with
the context it received at entry. -/
inductive BotEvent where
  | onRequest
  | send
  | onSuccess (ctx : Context)
  | onError (ctx : Context) (e : StepError)
  | onTimeout (ctx : Context)
deriving DecidableEq, Repr

/-- `Bot` (`bot.rs` lines 11-13). -/
structure Bot where
  steps : StepManager

namespace Bot

/-- `Bot::new`. -/
def new : Bot := { steps := StepManager.new }

/-- `Bot::new_context` (`bot.rs` lines 83-104): builds a fresh `Context`
from the request returned by `on_request`; `status_codes` is cloned from
the request, the request builder is built and stored, everything else
starts empty. -/
def new_context (req : Request) : Context :=
  { request := req
    current_step := none
    http_requester := {}
    request_builder := some {}
    response := none
    next_step := none
    status_codes := req.status_codes
    time_elapsed := 0 }

/-- `Bot::handle_step` (`bot.rs` lines 22-81), paired with the event trace
of its callback invocations.  Mirrors the source line by line: registry
lookup (whose `.unwrap()` panic propagates), `on_request`, context
creation, `request_builder.take()`, the send, `set_time_elapsed` on both
the error and the response path, the status-code acceptance check, and
exactly one callback per outcome. -/
def handle_step (bot : Bot) (w : World) (step_name : String) :
    RunResult × List BotEvent :=
  match bot.steps.get step_name with
  | none => (.panic, [])
  | some none => (.err (.StepNotFound step_name), [])
  | some (some step) =>
      let req := step.on_request
      let ctx : Context := new_context req
      let ctx : Context := { ctx with current_step := some step_name }
      let ctx : Context := { ctx with request_builder := none }
      match w.send with
      | .failed msg is_timeout =>
          let ctx := ctx.set_time_elapsed w.elapsed
          if is_timeout then
            let _ := step.on_timeout ctx
            (.err (.ReqwestError msg), [.onRequest, .send, .onTimeout ctx])
          else
            let _ := step.on_error ctx (.ReqwestError msg)
            (.err (.ReqwestError msg),
              [.onRequest, .send, .onError ctx (.ReqwestError msg)])
      | .ok status =>
          let ctx := ctx.set_time_elapsed w.elapsed
          let status_code := status
          let expected_codes := ctx.status_codes
          let error_condition :=
            match expected_codes with
            | some codes => !(codes.contains status_code)
            | none => !(StatusCode.is_success status_code)
          if error_condition then
            let error := StepError.StatusCodeNotFound (Int.ofNat status_code)
              (expected_codes.getD [])
            let _ := step.on_error ctx error
            (.err error, [.onRequest, .send, .onError ctx error])
          else
            let ctx : Context := { ctx with response := none }
            let ctxOut := step.on_success ctx
            (.ok ctxOut, [.onRequest, .send, .onSuccess ctx])

end Bot

/-- The acceptance predicate of `handle_step` (lines 56-64), expressed on
the step descriptor: membership in the explicit list when the request
carries one, the conventional 2xx range otherwise. -/
def isAccepted (step : Stepable) (status : Nat) : Bool :=
  match step.on_request.status_codes with
  | some codes => codes.contains status
  | none => StatusCode.is_success status

/-- The callback events (success, error, timeout) of a trace, i.e. the
step-callback invocations `handle_step` performed. -/
def callbackEvents (es : List BotEvent) : List BotEvent :=
  es.filter fun e =>
    match e with
    | .onSuccess _ => true
    | .onError _ _ => true
    | .onTimeout _ => true
    | _ => false

/-- The context a callback event received at entry (`none` for the
non-callback events). -/
def eventCtx : BotEvent → Option Context
  | .onSuccess ctx => some ctx
  | .onError ctx _ => some ctx
  | .onTimeout ctx => some ctx
  | _ => none

/-! ### Concrete steps and bots used by witnesses and counterexamples -/

/-- A step with an explicit accepted-status-code list `[200]` and inert
callbacks. -/
def demoStep : Stepable :=
  { name := "demo"
    on_request := { status_codes := some [200], tag := "demo-req" }
    on_success := fun ctx => ctx
    on_error := fun ctx _ => ctx
    on_timeout := fun ctx => ctx }

/-- A bot whose registry holds exactly `demoStep`. -/
def demoBot : Bot := { steps := StepManager.new.insert demoStep }

/-- A step with no explicit accepted-status-code list. -/
def plainStep : Stepable :=
  { name := "plain"
    on_request := { status_codes := none, tag := "plain-req" }
    on_success := fun ctx => ctx
    on_error := fun ctx _ => ctx
    on_timeout := fun ctx => ctx }

/-- A bot whose registry holds exactly `plainStep`. -/
def plainBot : Bot := { steps := StepManager.new.insert plainStep }

/-- A step whose `on_success` stores a body into the context via
`set_response`. -/
def respStep : Stepable :=
  { name := "resp"
    on_request := { status_codes := none, tag := "resp-req" }
    on_success := fun ctx => ctx.set_response [104, 105]
    on_error := fun ctx _ => ctx
    on_timeout := fun ctx => ctx }

/-- A bot whose registry holds exactly `respStep`. -/
def respBot : Bot := { steps := StepManager.new.insert respStep }

/-- A step whose `on_success` stores a body and then reads it back, making
the callback-set body observable on the returned context. -/
def respReadStep : Stepable :=
  { name := "respread"
    on_request := { status_codes := none, tag := "respread-req" }
    on_success := fun ctx => ctx.set_response [77]
    on_error := fun ctx _ => ctx
    on_timeout := fun ctx => ctx }

/-- A bot whose registry holds exactly `respReadStep`. -/
def respReadBot : Bot := { steps := StepManager.new.insert respReadStep }

/-- A step whose `on_success` sets the next-step hint to `"X"`. -/
def nextStep : Stepable :=
  { name := "next"
    on_request := { status_codes := some [200], tag := "next-req" }
    on_success := fun ctx => ctx.set_next_step "X"
    on_error := fun ctx _ => ctx
    on_timeout := fun ctx => ctx }

/-- A bot whose registry holds exactly `nextStep`. -/
def nextBot : Bot := { steps := StepManager.new.insert nextStep }

/-- A step with inert callbacks, baseline for `mutStepB`. -/
def mutStepA : Stepable :=
  { name := "mut"
    on_request := { status_codes := some [200], tag := "mut-req" }
    on_success := fun ctx => ctx
    on_error := fun ctx _ => ctx
    on_timeout := fun ctx => ctx }

/-- Like `mutStepA` but with `on_error` and `on_timeout` that mutate the
context (a recovery next-step hint, a bogus elapsed time). -/
def mutStepB : Stepable :=
  { name := "mut"
    on_request := { status_codes := some [200], tag := "mut-req" }
    on_success := fun ctx => ctx
    on_error := fun ctx _ => ctx.set_next_step "recover"
    on_timeout := fun ctx => ctx.set_time_elapsed 999 }

/-- A bot whose registry holds exactly `mutStepA`. -/
def mutBotA : Bot := { steps := StepManager.new.insert mutStepA }

/-- A bot whose registry holds exactly `mutStepB`. -/
def mutBotB : Bot := { steps := StepManager.new.insert mutStepB }

/-- The context as `handle_step` hands it to any step callback: built by
`new_context` from `on_request`, with `current_step` set, the request
builder taken, no buffered response, and the stopwatch reading stored by
`set_time_elapsed`. -/
def callbackCtx (step : Stepable) (step_name : String) (elapsed : Nat) :
    Context :=
  { request := step.on_request
    current_step := some step_name
    http_requester := {}
    request_builder := none
    response := none
    next_step := none
    status_codes := step.on_request.status_codes
    time_elapsed := elapsed }

/-- The context carried by a successful `RunResult`, if any. -/
def RunResult.okCtx : RunResult → Option Context
  | .ok ctx => some ctx
  | _ => none

/-! ### Helper lemmas on the registry -/

theorem findAssoc_insertAssoc_self (l : List (String × Stepable))
    (k : String) (v : Stepable) :
    StepManager.findAssoc (StepManager.insertAssoc l k v) k = some v := by
  induction l with
  | nil => simp [StepManager.insertAssoc, StepManager.findAssoc]
  | cons hd tl ih =>
      obtain ⟨k1, v1⟩ := hd
      by_cases h : k1 = k
      · simp [StepManager.insertAssoc, StepManager.findAssoc, h]
      · simp [StepManager.insertAssoc, StepManager.findAssoc, h, ih]

theorem length_insertAssoc (l : List (String × Stepable))
    (k : String) (v : Stepable) :
    (StepManager.insertAssoc l k v).length =
      if (StepManager.findAssoc l k).isSome then l.length else l.length + 1 := by
  induction l with
  | nil => simp [StepManager.insertAssoc, StepManager.findAssoc]
  | cons hd tl ih =>
      obtain ⟨k1, v1⟩ := hd
      by_cases h : k1 = k
      · simp [StepManager.insertAssoc, StepManager.findAssoc, h]
      · simp [StepManager.insertAssoc, StepManager.findAssoc, h, ih]
        split <;> simp

/-! ### Characterization of `handle_step` on a registered step -/

theorem handle_step_timeout_eq (bot : Bot) (w : World) (name msg : String)
    (step : Stepable) (hget : bot.steps.get name = some (some step))
    (hsend : w.send = .failed msg true) :
    bot.handle_step w name =
      (.err (.ReqwestError msg),
        [.onRequest, .send, .onTimeout (callbackCtx step name w.elapsed)]) := by
  obtain ⟨send, elapsed⟩ := w
  cases hsend
  simp [Bot.handle_step, hget, Bot.new_context, Context.set_time_elapsed,
    callbackCtx]

theorem handle_step_transport_eq (bot : Bot) (w : World) (name msg : String)
    (step : Stepable) (hget : bot.steps.get name = some (some step))
    (hsend : w.send = .failed msg false) :
    bot.handle_step w name =
      (.err (.ReqwestError msg),
        [.onRequest, .send,
          .onError (callbackCtx step name w.elapsed) (.ReqwestError msg)]) := by
  obtain ⟨send, elapsed⟩ := w
  cases hsend
  simp [Bot.handle_step, hget, Bot.new_context, Context.set_time_elapsed,
    callbackCtx]

theorem handle_step_accepted_eq (bot : Bot) (w : World) (name : String)
    (step : Stepable) (status : Nat)
    (hget : bot.steps.get name = some (some step))
    (hsend : w.send = .ok status) (hacc : isAccepted step status = true) :
    bot.handle_step w name =
      (.ok (step.on_success (callbackCtx step name w.elapsed)),
        [.onRequest, .send, .onSuccess (callbackCtx step name w.elapsed)]) := by
  obtain ⟨send, elapsed⟩ := w
  cases hsend
  unfold isAccepted at hacc
  cases hsc : step.on_request.status_codes with
  | none =>
      rw [hsc] at hacc
      simp at hacc
      simp [Bot.handle_step, hget, Bot.new_context, Context.set_time_elapsed,
        callbackCtx, hsc, hacc]
  | some codes =>
      rw [hsc] at hacc
      simp at hacc
      simp [Bot.handle_step, hget, Bot.new_context, Context.set_time_elapsed,
        callbackCtx, hsc, hacc]

theorem handle_step_rejected_eq (bot : Bot) (w : World) (name : String)
    (step : Stepable) (status : Nat)
    (hget : bot.steps.get name = some (some step))
    (hsend : w.send = .ok status) (hacc : isAccepted step status = false) :
    bot.handle_step w name =
      (.err (.StatusCodeNotFound (Int.ofNat status)
          (step.on_request.status_codes.getD [])),
        [.onRequest, .send,
          .onError (callbackCtx step name w.elapsed)
            (.StatusCodeNotFound (Int.ofNat status)
              (step.on_request.status_codes.getD []))]) := by
  obtain ⟨send, elapsed⟩ := w
  cases hsend
  unfold isAccepted at hacc
  cases hsc : step.on_request.status_codes with
  | none =>
      rw [hsc] at hacc
      simp at hacc
      simp [Bot.handle_step, hget, Bot.new_context, Context.set_time_elapsed,
        callbackCtx, hsc, hacc]
  | some codes =>
      rw [hsc] at hacc
      simp at hacc
      simp [Bot.handle_step, hget, Bot.new_context, Context.set_time_elapsed,
        callbackCtx, hsc, hacc]

/-- At most one step callback appears in the trace of any invocation. -/
theorem callback_count_le_one (bot : Bot) (w : World) (n : String) :
    (callbackEvents (bot.handle_step w n).2).length ≤ 1 := by
  rcases hg : bot.steps.get n with _ | (_ | step)
  · simp [Bot.handle_step, hg, callbackEvents]
  · simp [Bot.handle_step, hg, callbackEvents]
  · rcases hs : w.send with status | ⟨msg, tmo⟩
    · rcases hacc : isAccepted step status with _ | _
      · rw [handle_step_rejected_eq bot w n step status hg hs hacc]
        simp [callbackEvents]
      · rw [handle_step_accepted_eq bot w n step status hg hs hacc]
        simp [callbackEvents]
    · cases tmo
      · rw [handle_step_transport_eq bot w n msg step hg hs]
        simp [callbackEvents]
      · rw [handle_step_timeout_eq bot w n msg step hg hs]
        simp [callbackEvents]

/-- Every callback invoked by `handle_step` receives exactly
`callbackCtx step n w.elapsed` as its entry context. -/
theorem callback_entry_ctx (bot : Bot) (w : World) (n : String)
    (ev : BotEvent) (c : Context)
    (hmem : ev ∈ (bot.handle_step w n).2) (hctx : eventCtx ev = some c) :
    ∃ step, bot.steps.get n = some (some step)
      ∧ c = callbackCtx step n w.elapsed := by
  rcases hg : bot.steps.get n with _ | (_ | step)
  · simp [Bot.handle_step, hg] at hmem
  · simp [Bot.handle_step, hg] at hmem
  · refine ⟨step, rfl, ?_⟩
    rcases hs : w.send with status | ⟨msg, tmo⟩
    · rcases hacc : isAccepted step status with _ | _
      · rw [handle_step_rejected_eq bot w n step status hg hs hacc] at hmem
        simp at hmem
        rcases hmem with rfl | rfl | rfl <;> simp [eventCtx] at hctx
        exact hctx.symm
      · rw [handle_step_accepted_eq bot w n step status hg hs hacc] at hmem
        simp at hmem
        rcases hmem with rfl | rfl | rfl <;> simp [eventCtx] at hctx
        exact hctx.symm
    · cases tmo
      · rw [handle_step_transport_eq bot w n msg step hg hs] at hmem
        simp at hmem
        rcases hmem with rfl | rfl | rfl <;> simp [eventCtx] at hctx
        exact hctx.symm
      · rw [handle_step_timeout_eq bot w n msg step hg hs] at hmem
        simp at hmem
        rcases hmem with rfl | rfl | rfl <;> simp [eventCtx] at hctx
        exact hctx.symm

/-! ### Claim theorems -/

/-- C1: the claim says an unregistered step name makes `handle_step` fail
with `StepNotFound` without panicking and without invoking `on_request` or
sending anything.  The code instead panics: `StepManager::get` unwraps the
map lookup, so the `None => StepNotFound` arm of `handle_step` is
unreachable.  Evaluating the code on the failing input (an empty registry
and the name `"missing"`) yields the panic outcome and an empty event
trace — no `StepNotFound`, no `on_request`, no send. -/
theorem handle_step_unregistered_panics :
    Bot.new.handle_step { send := .ok 200, elapsed := 0 } "missing" =
      (RunResult.panic, []) := rfl

/-- C7: inserting a step `s` and then looking up `s.name` returns that
step (hence a step whose `name` equals `s.name`); the registry size grows
by zero when the name was already present (last write wins) and by one
otherwise. -/
theorem registry_insert_get_len (m : StepManager) (s : Stepable) :
    (m.insert s).get s.name = some (some s)
    ∧ ((m.insert s).get s.name).map (fun o => o.map Stepable.name) =
        some (some s.name)
    ∧ (m.insert s).len =
        (if m.contains_name s.name then m.len else m.len + 1) := by
  refine ⟨?_, ?_, ?_⟩
  · simp [StepManager.insert, StepManager.get, findAssoc_insertAssoc_self]
  · simp [StepManager.insert, StepManager.get, findAssoc_insertAssoc_self]
  · simp [StepManager.insert, StepManager.len, StepManager.contains_name,
      length_insertAssoc]

/-- C2: for a received response, the execution succeeds (invoking
`on_success`) exactly when the status code is accepted — membership in the
explicit accepted-code list when the request carries one, the conventional
2xx range (`StatusCode.is_success`) otherwise; a rejected status takes the
error path. -/
theorem acceptance_rule (bot : Bot) (w : World) (name : String)
    (step : Stepable) (status : Nat)
    (hget : bot.steps.get name = some (some step))
    (hsend : w.send = .ok status) :
    (isAccepted step status = true →
      bot.handle_step w name =
        (.ok (step.on_success (callbackCtx step name w.elapsed)),
          [.onRequest, .send, .onSuccess (callbackCtx step name w.elapsed)]))
    ∧ (isAccepted step status = false →
      ∃ e c, bot.handle_step w name =
        (.err e, [.onRequest, .send, .onError c e])) := by
  constructor
  · intro hacc
    exact handle_step_accepted_eq bot w name step status hget hsend hacc
  · intro hacc
    exact ⟨_, _, handle_step_rejected_eq bot w name step status hget hsend hacc⟩

/-- Witness for C2: `demoStep` accepts exactly `[200]`; on status 200 the
invocation succeeds through `on_success`. -/
theorem acceptance_rule_witness :
    demoBot.handle_step { send := .ok 200, elapsed := 7 } "demo" =
      (.ok (demoStep.on_success (callbackCtx demoStep "demo" 7)),
        [.onRequest, .send, .onSuccess (callbackCtx demoStep "demo" 7)]) :=
  (acceptance_rule demoBot { send := .ok 200, elapsed := 7 } "demo" demoStep
    200 rfl rfl).1 rfl

/-- C3: a rejected status makes `handle_step` build
`StatusCodeNotFound(actual, expected-or-empty)`, invoke `on_error` with
that very error, and return the same error to the caller. -/
theorem rejection_error_shape (bot : Bot) (w : World) (name : String)
    (step : Stepable) (status : Nat)
    (hget : bot.steps.get name = some (some step))
    (hsend : w.send = .ok status) (hrej : isAccepted step status = false) :
    bot.handle_step w name =
      (.err (.StatusCodeNotFound (Int.ofNat status)
          (step.on_request.status_codes.getD [])),
        [.onRequest, .send,
          .onError (callbackCtx step name w.elapsed)
            (.StatusCodeNotFound (Int.ofNat status)
              (step.on_request.status_codes.getD []))]) :=
  handle_step_rejected_eq bot w name step status hget hsend hrej

/-- Witness for C3: status 301 against the accepted list `[200]` yields
`StatusCodeNotFound(301, [200])`, dispatched to `on_error` and returned. -/
theorem rejection_error_shape_witness :
    demoBot.handle_step { send := .ok 301, elapsed := 4 } "demo" =
      (.err (.StatusCodeNotFound (Int.ofNat 301) [200]),
        [.onRequest, .send,
          .onError (callbackCtx demoStep "demo" 4)
            (.StatusCodeNotFound (Int.ofNat 301) [200])]) :=
  rejection_error_shape demoBot { send := .ok 301, elapsed := 4 } "demo"
    demoStep 301 rfl rfl rfl

/-- C4: a transport timeout invokes `on_timeout` exactly once — the trace
holds no `onError` and no `onSuccess` — and a `ReqwestError` failure is
returned; moreover every invocation runs at most one of the three step
callbacks. -/
theorem timeout_isolation (bot : Bot) (w : World) (name msg : String)
    (step : Stepable)
    (hget : bot.steps.get name = some (some step))
    (hsend : w.send = .failed msg true) :
    bot.handle_step w name =
      (.err (.ReqwestError msg),
        [.onRequest, .send, .onTimeout (callbackCtx step name w.elapsed)])
    ∧ ∀ (bot2 : Bot) (w2 : World) (n2 : String),
        (callbackEvents (bot2.handle_step w2 n2).2).length ≤ 1 :=
  ⟨handle_step_timeout_eq bot w name msg step hget hsend,
    fun bot2 w2 n2 => callback_count_le_one bot2 w2 n2⟩

/-- Witness for C4: a timeout against `demoStep` runs only `on_timeout`
and surfaces `ReqwestError` to the caller. -/
theorem timeout_isolation_witness :
    demoBot.handle_step
        { send := .failed "deadline exceeded" true, elapsed := 11 } "demo" =
      (.err (.ReqwestError "deadline exceeded"),
        [.onRequest, .send, .onTimeout (callbackCtx demoStep "demo" 11)]) :=
  (timeout_isolation demoBot
    { send := .failed "deadline exceeded" true, elapsed := 11 } "demo"
    "deadline exceeded" demoStep rfl rfl).1

/-- C5: whenever a request was sent, every step callback (`on_success`,
`on_error`, `on_timeout`) receives a context whose elapsed-time field
already holds the stopwatch reading, on every outcome path. -/
theorem elapsed_before_callbacks (bot : Bot) (w : World) (n : String)
    (ev : BotEvent) (c : Context)
    (hmem : ev ∈ (bot.handle_step w n).2) (hctx : eventCtx ev = some c) :
    c.time_elapsed = w.elapsed ∧ c.get_time_elapsed = w.elapsed := by
  obtain ⟨step, -, rfl⟩ := callback_entry_ctx bot w n ev c hmem hctx
  exact ⟨rfl, rfl⟩

/-- Witness for C5: the `on_success` callback of a concrete successful
invocation sees elapsed time 7, the stopwatch reading. -/
theorem elapsed_before_callbacks_witness :
    (callbackCtx demoStep "demo" 7).time_elapsed = 7
    ∧ (callbackCtx demoStep "demo" 7).get_time_elapsed = 7 :=
  elapsed_before_callbacks demoBot { send := .ok 200, elapsed := 7 } "demo"
    (.onSuccess (callbackCtx demoStep "demo" 7))
    (callbackCtx demoStep "demo" 7) (by decide) rfl

/-- C6 counterexample: the claim concludes that every successfully
returned context has no buffered response, but a step whose `on_success`
itself stores a body via `set_response` (`respStep`) makes `handle_step`
return a context whose buffered response is present. -/
theorem success_buffered_response_cex :
    ((respBot.handle_step { send := .ok 200, elapsed := 3 } "resp").1).okCtx.map
        Context.body_bytes = some (some [104, 105]) := by decide

/-- C6 as amended: on acceptance the driver clears the buffered response
before invoking `on_success` — the context handed to `on_success` has
`response = none` — and returns exactly what `on_success` produced; so the
returned context has no buffered response unless `on_success` itself
stored one. -/
theorem success_clears_response_before_on_success (bot : Bot) (w : World)
    (name : String) (step : Stepable) (status : Nat)
    (hget : bot.steps.get name = some (some step))
    (hsend : w.send = .ok status) (hacc : isAccepted step status = true) :
    ∃ c, bot.handle_step w name =
        (.ok (step.on_success c), [.onRequest, .send, .onSuccess c])
      ∧ c.response = none :=
  ⟨callbackCtx step name w.elapsed,
    handle_step_accepted_eq bot w name step status hget hsend hacc, rfl⟩

/-- Witness for the amended C6 at a concrete accepted invocation. -/
theorem success_clears_response_witness :
    ∃ c, demoBot.handle_step { send := .ok 200, elapsed := 5 } "demo" =
        (.ok (demoStep.on_success c), [.onRequest, .send, .onSuccess c])
      ∧ c.response = none :=
  success_clears_response_before_on_success demoBot
    { send := .ok 200, elapsed := 5 } "demo" demoStep 200 rfl rfl rfl

/-- C8: the next-step hint starts absent (`new_context` leaves it `none`)
and the driver never assigns it: the successful result is exactly the
output of `on_success` on a context whose hint is `none`, so a callback
that sets the hint to `x` makes the returned context report `some x`, and
a callback that leaves the context untouched makes it report `none`. -/
theorem next_step_propagation (bot : Bot) (w : World) (name : String)
    (step : Stepable) (status : Nat)
    (hget : bot.steps.get name = some (some step))
    (hsend : w.send = .ok status) (hacc : isAccepted step status = true) :
    (Bot.new_context step.on_request).next_step = none
    ∧ ∃ c, bot.handle_step w name =
          (.ok (step.on_success c), [.onRequest, .send, .onSuccess c])
        ∧ c.get_next_step = none
        ∧ (∀ x, step.on_success c = c.set_next_step x →
            (step.on_success c).get_next_step = some x)
        ∧ (step.on_success c = c →
            (step.on_success c).get_next_step = none) := by
  refine ⟨rfl, callbackCtx step name w.elapsed,
    handle_step_accepted_eq bot w name step status hget hsend hacc,
    rfl, ?_, ?_⟩
  · intro x h
    rw [h]
    rfl
  · intro h
    rw [h]
    rfl

/-- Witness for C8: `nextStep`'s `on_success` sets the hint to `"X"` and
the returned context reports `some "X"`; `plainStep` never sets it and the
returned context reports `none`. -/
theorem next_step_propagation_witness :
    ((nextBot.handle_step { send := .ok 200, elapsed := 1 } "next").1).okCtx.map
        Context.get_next_step = some (some "X")
    ∧ ((plainBot.handle_step { send := .ok 204, elapsed := 2 } "plain").1).okCtx.map
        Context.get_next_step = some none
    ∧ ((Bot.new_context nextStep.on_request).next_step = none
      ∧ ∃ c, nextBot.handle_step { send := .ok 200, elapsed := 1 } "next" =
            (.ok (nextStep.on_success c), [.onRequest, .send, .onSuccess c])
          ∧ c.get_next_step = none
          ∧ (∀ x, nextStep.on_success c = c.set_next_step x →
              (nextStep.on_success c).get_next_step = some x)
          ∧ (nextStep.on_success c = c →
              (nextStep.on_success c).get_next_step = none)) :=
  ⟨by decide, by decide,
    next_step_propagation nextBot { send := .ok 200, elapsed := 1 } "next"
      nextStep 200 rfl rfl rfl⟩

/-- C9 counterexample: the claim says `body_bytes` returns `none` on the
returned context of every invocation, but a step whose `on_success` stores
a body (`respReadStep`) makes the returned context report that body. -/
theorem driver_response_cex :
    ((respReadBot.handle_step { send := .ok 204, elapsed := 9 } "respread").1).okCtx.map
        Context.body_bytes = some (some [77])
    ∧ ((respReadBot.handle_step { send := .ok 204, elapsed := 9 } "respread").1).okCtx.map
        Context.body_text = some "M" := by
  constructor <;> decide

/-- C9 as amended: the driver itself never stores the received body — the
context handed to every step callback on every path has `response = none`,
so `body_bytes` yields `none` and `body_text` yields the empty string at
callback entry; a body is observable only if a callback stored it. -/
theorem driver_never_stores_response (bot : Bot) (w : World) (n : String)
    (ev : BotEvent) (c : Context)
    (hmem : ev ∈ (bot.handle_step w n).2) (hctx : eventCtx ev = some c) :
    c.response = none ∧ c.body_bytes = none ∧ c.body_text = "" := by
  obtain ⟨step, -, rfl⟩ := callback_entry_ctx bot w n ev c hmem hctx
  exact ⟨rfl, rfl, rfl⟩

/-- Witness for the amended C9 at the `on_error` callback of a concrete
rejected invocation. -/
theorem driver_never_stores_response_witness :
    (callbackCtx demoStep "demo" 4).response = none
    ∧ (callbackCtx demoStep "demo" 4).body_bytes = none
    ∧ (callbackCtx demoStep "demo" 4).body_text = "" :=
  driver_never_stores_response demoBot { send := .ok 301, elapsed := 4 }
    "demo"
    (.onError (callbackCtx demoStep "demo" 4)
      (.StatusCodeNotFound (Int.ofNat 301) [200]))
    (callbackCtx demoStep "demo" 4) (by decide) rfl

/-- C10: on every failure outcome only the error is returned — a transport
failure returns `ReqwestError`, a rejection returns `StatusCodeNotFound`,
never an `ok` context — and whatever `on_error` or `on_timeout` did to the
context is unobservable: two registries whose steps differ only in those
two callbacks produce identical results. -/
theorem failure_drops_context (b1 b2 : Bot) (w : World) (n : String)
    (s1 s2 : Stepable)
    (hg1 : b1.steps.get n = some (some s1))
    (hg2 : b2.steps.get n = some (some s2))
    (hreq : s1.on_request = s2.on_request)
    (hsucc : s1.on_success = s2.on_success) :
    (b1.handle_step w n).1 = (b2.handle_step w n).1
    ∧ (∀ msg tmo, w.send = .failed msg tmo →
        (b1.handle_step w n).1 = .err (.ReqwestError msg))
    ∧ (∀ status, w.send = .ok status → isAccepted s1 status = false →
        (b1.handle_step w n).1 =
          .err (.StatusCodeNotFound (Int.ofNat status)
            (s1.on_request.status_codes.getD []))) := by
  have hcc : callbackCtx s1 n w.elapsed = callbackCtx s2 n w.elapsed := by
    simp [callbackCtx, hreq]
  have hia : isAccepted s1 = isAccepted s2 := by
    funext st
    simp [isAccepted, hreq]
  refine ⟨?_, ?_, ?_⟩
  · rcases hs : w.send with status | ⟨msg, tmo⟩
    · rcases hacc : isAccepted s1 status with _ | _
      · rw [handle_step_rejected_eq b1 w n s1 status hg1 hs hacc,
          handle_step_rejected_eq b2 w n s2 status hg2 hs (hia ▸ hacc)]
        simp [hreq]
      · rw [handle_step_accepted_eq b1 w n s1 status hg1 hs hacc,
          handle_step_accepted_eq b2 w n s2 status hg2 hs (hia ▸ hacc)]
        simp [hcc, hsucc]
    · cases tmo
      · rw [handle_step_transport_eq b1 w n msg s1 hg1 hs,
          handle_step_transport_eq b2 w n msg s2 hg2 hs]
      · rw [handle_step_timeout_eq b1 w n msg s1 hg1 hs,
          handle_step_timeout_eq b2 w n msg s2 hg2 hs]
  · intro msg tmo hs
    cases tmo
    · rw [handle_step_transport_eq b1 w n msg s1 hg1 hs]
    · rw [handle_step_timeout_eq b1 w n msg s1 hg1 hs]
  · intro status hs hacc
    rw [handle_step_rejected_eq b1 w n s1 status hg1 hs hacc]

/-- Witness for C10: `mutStepA` and `mutStepB` differ only in `on_error`
and `on_timeout` (which mutate the context in `mutStepB`), yet a transport
failure yields the same caller-visible result, the bare `ReqwestError`. -/
theorem failure_drops_context_witness :
    (mutBotA.handle_step { send := .failed "boom" false, elapsed := 2 } "mut").1 =
      (mutBotB.handle_step { send := .failed "boom" false, elapsed := 2 } "mut").1
    ∧ (mutBotA.handle_step { send := .failed "boom" false, elapsed := 2 } "mut").1 =
        .err (.ReqwestError "boom") :=
  ⟨(failure_drops_context mutBotA mutBotB
      { send := .failed "boom" false, elapsed := 2 } "mut" mutStepA mutStepB
      rfl rfl rfl rfl).1,
    (failure_drops_context mutBotA mutBotB
      { send := .failed "boom" false, elapsed := 2 } "mut" mutStepA mutStepB
      rfl rfl rfl rfl).2.1 "boom" false rfl⟩

end Mimicr
